import Mathlib

/-!
Verification development for the insurance-policy record pipeline
(customer_standardize.py, churn_rate.py, sanity_checks.py).

The Python sources are shallowly embedded: pandas Series / DataFrames become
Lean lists and association lists, NaN / None become `Option`, float arithmetic
becomes exact rational (`ℚ`) arithmetic, and Python exceptions become
`Except String`.  Every definition mirrors the corresponding source function;
comments cite the file and behaviour being embedded.
-/

/-! ### Generic sorting helper

pandas `sort_values` sorts by a key; the order among tied keys is not relied
upon anywhere (the spec leaves tie order unspecified), so we embed sorting as
a plain insertion sort on a boolean "precedes-or-equal" test.  `quantile`
also sorts its input internally.
-/

deriving instance DecidableEq for Except

theorem exceptBind_ok (a : α) (f : α → Except String β) :
    (Except.ok a >>= f) = f a := rfl

theorem exceptBind_error (e : String) (f : α → Except String β) :
    ((Except.error e : Except String α) >>= f) = .error e := rfl

theorem exceptPure (a : α) : (pure a : Except String α) = .ok a := rfl

def insertIntoSorted (le : α → α → Bool) (a : α) : List α → List α
  | [] => [a]
  | b :: bs => if le a b then a :: b :: bs else b :: insertIntoSorted le a bs

def sortBy (le : α → α → Bool) : List α → List α
  | [] => []
  | a :: as => insertIntoSorted le a (sortBy le as)

theorem perm_insertIntoSorted (le : α → α → Bool) (a : α) (l : List α) :
    List.Perm (insertIntoSorted le a l) (a :: l) := by
  induction l with
  | nil => simp [insertIntoSorted]
  | cons b bs ih =>
    simp only [insertIntoSorted]
    by_cases h : le a b
    · simp [h]
    · simp only [h]
      exact List.Perm.trans (List.Perm.cons b ih) (List.Perm.swap a b bs)

theorem perm_sortBy (le : α → α → Bool) (l : List α) :
    List.Perm (sortBy le l) l := by
  induction l with
  | nil => simp [sortBy]
  | cons a as ih =>
    exact List.Perm.trans (perm_insertIntoSorted le a (sortBy le as))
      (List.Perm.cons a ih)

/-! ### ConflictResolver — customer_standardize.py, `resolve` (lines 33-50)

```python
def resolve(series):
    values = series.dropna()
    if len(values) == 0:
        return 'Unknown', 0
    unique = values.unique()
    if len(unique) == 1:
        return unique[0], 0
    mode = values.mode()
    if len(mode) == 1:
        return mode.iloc[0], 1
    return 'Conflict', 1
```

A pandas Series of nullable strings is a `List (Option String)`; `dropna` is
`filterMap id`; `unique` is `dedup` (`unique[0]` is only read when there is a
single distinct value, so occurrence order is irrelevant); `mode` is the list
of distinct values attaining the maximal multiplicity (`mode.iloc[0]` is only
read when that list is a singleton, so pandas' sorted order is irrelevant).
-/

def modesOf (vs : List String) : List String :=
  let uniq := vs.dedup
  let mx := (uniq.map (fun u => vs.count u)).foldr max 0
  uniq.filter (fun u => vs.count u == mx)

def resolve (values : List (Option String)) : String × Nat :=
  let vs := values.filterMap id
  if vs.length = 0 then ("Unknown", 0)
  else if vs.dedup.length = 1 then (vs.dedup.headD "", 0)
  else if (modesOf vs).length = 1 then ((modesOf vs).headD "", 1)
  else ("Conflict", 1)

/-! ### Standardizer — customer_standardize.py (lines 54-71)

```python
for customer_id, group in df.groupby('customer_id'):
    gender_val,  gender_conflict  = resolve(group['customer_gender'])
    country_val, country_conflict = resolve(group['country'])
    records.append({...})
df_customer = pd.DataFrame(records)
df = df.merge(df_customer, on='customer_id', how='left')
df.rename(columns={'gender_std': 'customer_gender_std'}, inplace=True)
```

`groupby('customer_id')` partitions rows by customer; the left merge on the
(unique-keyed) customer table attaches each customer's resolved pair to every
one of that customer's rows.  The composite is embedded directly: every row
receives the resolver output computed over all rows sharing its customer_id.
-/

structure RawRow where
  policy_id : String
  customer_id : String
  customer_gender : Option String
  country : Option String
deriving DecidableEq

structure StdRow where
  policy_id : String
  customer_id : String
  customer_gender : Option String
  country : Option String
  customer_gender_std : String
  gender_conflict : Nat
  country_std : String
  country_conflict : Nat
deriving DecidableEq

def genderObs (rows : List RawRow) (c : String) : List (Option String) :=
  (rows.filter (fun r => r.customer_id == c)).map (fun r => r.customer_gender)

def countryObs (rows : List RawRow) (c : String) : List (Option String) :=
  (rows.filter (fun r => r.customer_id == c)).map (fun r => r.country)

def standardize (rows : List RawRow) : List StdRow :=
  rows.map (fun r =>
    let gp := resolve (genderObs rows r.customer_id)
    let cp := resolve (countryObs rows r.customer_id)
    { policy_id := r.policy_id
      customer_id := r.customer_id
      customer_gender := r.customer_gender
      country := r.country
      customer_gender_std := gp.1
      gender_conflict := gp.2
      country_std := cp.1
      country_conflict := cp.2 })

/-! ### ChurnAggregator — churn_rate.py

```python
df                 = pd.read_csv('policies_standardized.csv')
overall_churn_rate = df['churned'].mean() * 100

def churn_table(df, col, title):
    grp = (df.groupby(col)
             .agg(Total=('policy_id', 'nunique'), Churned=('churned', 'sum'))
             .assign(**{'Rate%': lambda d: d['Churned'] / d['Total'] * 100})
             .sort_values('Rate%', ascending=False))
    for val, row in grp.iterrows():
        diff = row['Rate%'] - overall_churn_rate
        ...
```

A policy row carries its `policy_id`, the boolean `churned` flag (a non-null
bool column in the standardized table) and the remaining cells as an
association list from column name to nullable string (`none` = NaN).
`groupby(col)` keys are the distinct non-null values of the column — pandas
drops NaN group keys by default — and `('policy_id','nunique')` counts
distinct policy_ids within the group while `('churned','sum')` sums the raw
boolean column.  Group-key order feeds a sort keyed on Rate% whose tie order
is unspecified, so `dedup` order is immaterial.
-/

structure CRow where
  policy_id : String
  churned : Bool
  attrs : List (String × Option String)
deriving DecidableEq

/-- `df[col]` cell of one row: a column entry may itself be NaN (`some none`
in the association list) or the row may lack the entry entirely. -/
def cell (r : CRow) (c : String) : Option String :=
  (r.attrs.lookup c).join

/-- `df['churned'].mean() * 100` over the full table (churn_rate.py line 19). -/
def overall_churn_rate (rows : List CRow) : ℚ :=
  (((rows.filter (fun r => r.churned)).length : ℚ) / (rows.length : ℚ)) * 100

/-- The distinct non-null group keys of `df.groupby(col)` (NaN keys dropped). -/
def keysOf (rows : List CRow) (g : CRow → Option String) : List String :=
  (rows.filterMap g).dedup

/-- The rows of one group: those whose group-column value equals the key. -/
def groupRows (rows : List CRow) (g : CRow → Option String) (v : String) :
    List CRow :=
  rows.filter (fun r => g r == some v)

structure AggRow where
  value : String
  total : Nat
  churnedCount : Nat
  rate : ℚ
deriving DecidableEq

/-- One aggregated line: `Total = nunique(policy_id)`,
`Churned = sum(churned)`, `Rate% = Churned / Total * 100`. -/
def aggOf (rows : List CRow) (g : CRow → Option String) (v : String) : AggRow :=
  let grp := groupRows rows g v
  let total := ((grp.map (fun r => r.policy_id)).dedup).length
  let ch := (grp.filter (fun r => r.churned)).length
  ⟨v, total, ch, ((ch : ℚ) / (total : ℚ)) * 100⟩

def churnGroups (rows : List CRow) (g : CRow → Option String) : List AggRow :=
  (keysOf rows g).map (aggOf rows g)

/-- `grp.sort_values('Rate%', ascending=False)`. -/
def churnTableSorted (rows : List CRow) (g : CRow → Option String) :
    List AggRow :=
  sortBy (fun a b => decide (b.rate ≤ a.rate)) (churnGroups rows g)

/-- The printed breakdown: each sorted line together with its
`diff = row['Rate%'] - overall_churn_rate` column (lines 34-38). -/
def churnBreakdown (rows : List CRow) (g : CRow → Option String)
    (baseline : ℚ) : List (AggRow × ℚ) :=
  (churnTableSorted rows g).map (fun a => (a, a.rate - baseline))

/-- One report run: every breakdown of the run reuses the single
`overall_churn_rate` computed once at load time (line 19). -/
def churnReport (rows : List CRow) (gs : List (CRow → Option String)) :
    List (List (AggRow × ℚ)) :=
  gs.map (fun g => churnBreakdown rows g (overall_churn_rate rows))

/-! `churn_table` is called with a column *name*; `df.groupby(col)` raises
`KeyError` when the column is absent — churn_rate.py performs no
`col in df.columns` guard (unlike sanity_checks.py). -/

structure ChurnDF where
  cols : List String
  rows : List CRow
deriving DecidableEq

def churn_table (df : ChurnDF) (col : String) (baseline : ℚ) :
    Except String (List (AggRow × ℚ)) :=
  if df.cols.contains col then
    .ok (churnBreakdown df.rows (fun r => cell r col) baseline)
  else
    .error ("KeyError: " ++ col)

/-- The report loop of churn_rate.py calls `churn_table` once per configured
column, sequentially; an uncaught `KeyError` aborts the remaining calls.
(The two `pd.cut`-derived bin columns are among the configured columns; their
binning does not affect column-absence behaviour and is not modelled here.) -/
def churnRun (df : ChurnDF) (cols : List String) :
    Except String (List (List (AggRow × ℚ))) :=
  cols.mapM (fun c => churn_table df c (overall_churn_rate df.rows))

/-! ### QualityValidator — sanity_checks.py

The validator's DataFrame is loaded from CSV, so each column has one dtype.
A column is embedded by dtype: nullable-string (`object`), nullable-numeric
(`float64`/`int64`), parsed-date (entries are abstract timestamps in ℚ, with
`none` for an empty/unparseable CSV entry — `pd.to_datetime(errors='coerce')`
is then the identity on this representation), or non-null boolean.  A
DataFrame is an association list from column name to column, so `col in
df.columns` is `(df.lookup col).isSome`.

Python exceptions are `Except String`: `.str.lower()` on a non-string column
raises `AttributeError`, and ordered comparison of a string column against a
number raises `TypeError` — both faithful to pandas.  Each check renders a
report section; the rendering of counts and percentages is not load-bearing
for any claim, so a check's value is the list of its section marker and the
per-item lines it covers.
-/

inductive Col where
  | strC : List (Option String) → Col
  | numC : List (Option ℚ) → Col
  | dateC : List (Option ℚ) → Col
  | boolC : List Bool → Col
deriving DecidableEq

abbrev DF := List (String × Col)

def colLen : Col → Nat
  | .strC xs => xs.length
  | .numC xs => xs.length
  | .dateC xs => xs.length
  | .boolC bs => bs.length

/-- `df[col].isnull()` — a boolean column is never null. -/
def isnaList : Col → List Bool
  | .strC xs => xs.map (fun o => o.isNone)
  | .numC xs => xs.map (fun o => o.isNone)
  | .dateC xs => xs.map (fun o => o.isNone)
  | .boolC bs => bs.map (fun _ => false)

def isnaCount (c : Col) : Nat := (isnaList c).countP id

/-- `df[col] == True` elementwise; on a non-boolean column the comparison is
False everywhere (pandas equality against a bool literal never raises). -/
def eqTrueList : Col → List Bool
  | .boolC bs => bs
  | c => List.replicate (colLen c) false

/-- `df[col] == False` elementwise. -/
def eqFalseList : Col → List Bool
  | .boolC bs => bs.map (fun b => !b)
  | c => List.replicate (colLen c) false

/-- `(df[col] == False).sum()`. -/
def eqFalseCount (c : Col) : Nat := (eqFalseList c).countP id

/-- `df[col].str.lower()` — raises AttributeError on a non-string column;
NaN entries stay NaN. -/
def strLower : Col → Except String (List (Option String))
  | .strC xs => .ok (xs.map (fun o => o.map (fun t => t.toLower)))
  | _ => .error "AttributeError: can only use .str accessor with string values"

/-- `pd.to_datetime(df[col], errors='coerce')` on the date representation. -/
def toDatetime : Col → List (Option ℚ)
  | .dateC xs => xs
  | .numC xs => xs
  | c => List.replicate (colLen c) none

/-- Numeric view of a column for ordered comparisons: booleans coerce to 0/1,
while comparing a string or date column against a number raises TypeError. -/
def numVals : Col → Except String (List (Option ℚ))
  | .numC xs => .ok xs
  | .boolC bs => .ok (bs.map (fun b => some (if b then (1 : ℚ) else 0)))
  | _ => .error "TypeError: comparison of non-numeric column"

def countNone (l : List (Option ℚ)) : Nat := l.countP (fun o => o.isNone)

/-- Check 1 — `print_shape` (lines 15-20): row and column counts. -/
def print_shape (df : DF) : Except String (List String) :=
  let n := match df with | [] => 0 | nc :: _ => colLen nc.2
  .ok ["1. SHAPE", toString n, toString df.length]

def dtypeName : Col → String
  | .strC _ => "object"
  | .numC _ => "float64"
  | .dateC _ => "object"
  | .boolC _ => "bool"

/-- Check 2 — `print_dtypes` (lines 24-35): per-column dtype census. -/
def print_dtypes (df : DF) : Except String (List String) :=
  .ok ("2. DATA TYPES" :: df.map (fun nc => nc.1 ++ ": " ++ dtypeName nc.2))

def categoricalCols : List String :=
  ["customer_gender", "marital_status", "product_type",
   "payment_frequency", "acquisition_channel", "country", "income_band"]

/-- The configured categorical columns the check actually covers:
`if col not in df.columns: continue` (lines 49-51). -/
def coveredCategoricalCols (df : DF) : List String :=
  categoricalCols.filter (fun c => (df.lookup c).isSome)

/-- Check 3 — `print_categorical_distribution` (lines 39-67): value counts per
covered column, plus churn_reason over the churned subset when both columns
exist.  All of its computations are total, so it never raises. -/
def print_categorical_distribution (df : DF) : Except String (List String) :=
  .ok ("3. CATEGORICAL DISTRIBUTION" :: coveredCategoricalCols df ++
    (if (df.lookup "churn_reason").isSome && (df.lookup "churned").isSome then
      ["churn_reason"] else []))

/-- The columns-with-missing table (lines 76-82), sorted descending by count. -/
def missingTable (df : DF) : List (String × Nat) :=
  sortBy (fun a b => decide (b.2 ≤ a.2))
    ((df.map (fun nc => (nc.1, isnaCount nc.2))).filter (fun p => decide (0 < p.2)))

/-- The auto-detected justification dictionary (lines 88-103).

```python
justifications = {}
if 'churned' in df.columns and 'policy_end_date' in df.columns:
    df_tmp['policy_end_date'] = pd.to_datetime(..., errors='coerce')
    if df_tmp['policy_end_date'].isna().sum() == (df_tmp['churned'] == False).sum():
        justifications['policy_end_date'] = '✓ churned=False'
        justifications['churn_reason']    = '✓ churned=False'
if 'discount_applied' in df.columns and 'discount_rate' in df.columns:
    if df['discount_rate'].isna().sum() == (df['discount_applied'] == False).sum():
        justifications['discount_rate'] = '✓ discount_applied=False'
if 'acquisition_channel' in df.columns and 'agent_id' in df.columns:
    if df['agent_id'].isna().sum() == (df['acquisition_channel'].str.lower() != 'agent').sum():
        justifications['agent_id'] = '✓ acquisition_channel != Agent'
```

Note a NaN channel entry compares `!= 'agent'` as True in pandas. -/
def missingJustifications (df : DF) : Except String (List (String × String)) := do
  let js1 := match df.lookup "churned", df.lookup "policy_end_date" with
    | some cch, some cend =>
      if countNone (toDatetime cend) = eqFalseCount cch then
        [("policy_end_date", "churned=False"), ("churn_reason", "churned=False")]
      else []
    | _, _ => []
  let js2 := match df.lookup "discount_applied", df.lookup "discount_rate" with
    | some capp, some crate =>
      if isnaCount crate = eqFalseCount capp then
        [("discount_rate", "discount_applied=False")]
      else []
    | _, _ => []
  let js3 ← match df.lookup "acquisition_channel", df.lookup "agent_id" with
    | some cchan, some cagent => do
        let low ← strLower cchan
        pure (if isnaCount cagent = low.countP (fun o => !(o == some "agent")) then
          [("agent_id", "acquisition_channel != Agent")] else [])
    | _, _ => pure []
  pure (js1 ++ js2 ++ js3)

/-- Check 4 — `print_missing_values` (lines 71-110): early-returns when no
column has a missing value; otherwise builds the justification dictionary and
prints one line per missing column with its justification (or `-`). -/
def print_missing_values (df : DF) : Except String (List String) :=
  let miss := missingTable df
  if miss.isEmpty then .ok ["4. MISSING VALUES", "No missing values found."]
  else do
    let js ← missingJustifications df
    .ok ("4. MISSING VALUES" ::
      miss.map (fun p => p.1 ++ ": " ++ ((js.lookup p.1).getD "-")))

/-- Check 5 — `print_duplicates` (lines 114-136): full-row/id duplicate
counts; every computation is total (no raise is possible), and the id
sub-reports are guarded on column presence. -/
def print_duplicates (df : DF) : Except String (List String) :=
  .ok ("5. DUPLICATES" ::
    (if (df.lookup "policy_id").isSome then ["policy_id"] else []) ++
    (if (df.lookup "customer_id").isSome then ["customer_id"] else []))

/-- The numeric range rules (lines 148-160). -/
def numericRules : List (String × (ℚ → Bool)) :=
  [("customer_age", fun s => decide (s < 18) || decide (120 < s)),
   ("num_dependents", fun s => decide (s < 0)),
   ("coverage_amount", fun s => decide (s ≤ 0)),
   ("premium", fun s => decide (s ≤ 0)),
   ("tenure_months", fun s => decide (s < 0)),
   ("renewal_count", fun s => decide (s < 0)),
   ("num_riders", fun s => decide (s < 0)),
   ("late_payment_count", fun s => decide (s < 0)),
   ("customer_service_calls", fun s => decide (s < 0)),
   ("premium_change_pct", fun s => decide (s < -1) || decide (1 < s)),
   ("discount_rate", fun s => decide (s < 0) || decide (1 < s))]

/-- Check 6 — `print_impossible_values` (lines 140-204): numeric range rules
(a pandas comparison skips NaN entries), the date-order rule, and the
cross-column consistency rules; a rule contributes a finding only when its
count is positive. -/
def print_impossible_values (df : DF) : Except String (List String) := do
  let issues1 ← numericRules.foldlM (fun acc rule =>
    match df.lookup rule.1 with
    | none => pure acc
    | some col => do
        let vs ← numVals col
        let n := (vs.filterMap id).countP rule.2
        pure (if 0 < n then acc ++ [rule.1] else acc)) []
  let issues2 :=
    match df.lookup "policy_start_date", df.lookup "policy_end_date" with
    | some cs2, some ce =>
        let n := ((toDatetime cs2).zip (toDatetime ce)).countP (fun p =>
          match p.1, p.2 with
          | some a, some b => decide (b < a)
          | _, _ => false)
        if 0 < n then ["end_before_start"] else []
    | _, _ => []
  let issues3 :=
    match df.lookup "churned", df.lookup "policy_end_date" with
    | some cch, some cend =>
        let pend := toDatetime cend
        let n1 := ((eqTrueList cch).zip pend).countP (fun p => p.1 && p.2.isNone)
        let n2 := ((eqFalseList cch).zip pend).countP (fun p => p.1 && p.2.isSome)
        (if 0 < n1 then ["churned_without_end_date"] else []) ++
        (if 0 < n2 then ["end_date_without_churn"] else [])
    | _, _ => []
  let issues4 :=
    match df.lookup "discount_applied", df.lookup "discount_rate" with
    | some capp, some crate =>
        let n1 := ((eqTrueList capp).zip (isnaList crate)).countP
          (fun p => p.1 && p.2)
        let n2 := ((eqFalseList capp).zip (isnaList crate)).countP
          (fun p => p.1 && !p.2)
        (if 0 < n1 then ["discount_applied_without_rate"] else []) ++
        (if 0 < n2 then ["discount_rate_without_applied"] else [])
    | _, _ => []
  let issues5 ←
    match df.lookup "acquisition_channel", df.lookup "agent_id" with
    | some cchan, some cagent => do
        let low ← strLower cchan
        let isAgent := low.map (fun o => o == some "agent")
        let n1 := (isAgent.zip (isnaList cagent)).countP (fun p => p.1 && p.2)
        let n2 := (isAgent.zip (isnaList cagent)).countP (fun p => !p.1 && !p.2)
        pure ((if 0 < n1 then ["agent_channel_without_agent_id"] else []) ++
          (if 0 < n2 then ["agent_id_without_agent_channel"] else []))
    | _, _ => pure []
  let issues := issues1 ++ issues2 ++ issues3 ++ issues4 ++ issues5
  .ok ("6. IMPOSSIBLE VALUES" ::
    (if issues.isEmpty then ["No impossible values detected."] else issues))

/-- pandas `Series.quantile(p)` with the default `'linear'` interpolation:
the value at fractional position `p * (n - 1)` of the sorted data. -/
def quantileLinear (xs : List ℚ) (p : ℚ) : ℚ :=
  let sorted := sortBy (fun a b => decide (a ≤ b)) xs
  let n := sorted.length
  let h := p * ((n : ℚ) - 1)
  let i := (⌊h⌋).toNat
  let lo := sorted.getD i 0
  let hi := sorted.getD (i + 1) lo
  lo + (h - (⌊h⌋ : ℚ)) * (hi - lo)

/-- The per-column body of `print_outliers` (lines 226-237): on the non-null
values, compute Q1, Q3, IQR, the 1.5·IQR fences and the out-of-bounds count;
skipped (`none`) when the column is empty or IQR is zero. -/
def outlierStats (s : List ℚ) : Option (ℚ × ℚ × ℚ × ℚ × ℚ × Nat) :=
  if s.isEmpty then none
  else
    let q1 := quantileLinear s (1/4)
    let q3 := quantileLinear s (3/4)
    let iqr := q3 - q1
    if iqr = 0 then none
    else
      let lower := q1 - 3/2 * iqr
      let upper := q3 + 3/2 * iqr
      let nOut := s.countP (fun x => decide (x < lower) || decide (upper < x))
      some (q1, q3, iqr, lower, upper, nOut)

def outlierCols : List String :=
  ["customer_age", "coverage_amount", "premium", "tenure_months",
   "num_dependents", "renewal_count", "num_riders", "late_payment_count",
   "customer_service_calls", "premium_change_pct", "discount_rate"]

/-- Check 7 — `print_outliers` (lines 208-242): one stats line per present,
non-skipped numeric column. -/
def print_outliers (df : DF) : Except String (List String) := do
  let lines ← outlierCols.foldlM (fun acc c =>
    match df.lookup c with
    | none => pure acc
    | some col => do
        let vs ← numVals col
        pure (match outlierStats (vs.filterMap id) with
          | none => acc
          | some _ => acc ++ [c])) []
  .ok ("7. OUTLIERS" :: lines)

/-- The fixed battery run by `main()` (lines 257-265), in source order. -/
def sanityChecks : List (DF → Except String (List String)) :=
  [print_shape, print_dtypes, print_categorical_distribution,
   print_missing_values, print_duplicates, print_impossible_values,
   print_outliers]

/-- `main()`'s control flow (lines 246-274): the checks run sequentially
inside a single `try:`.  Output printed before an exception stays in the
report; the first exception skips every remaining check and is rendered as a
final `Error:` line by the shared `except Exception` handler; the
`CHECKS COMPLETE` footer appears only when the whole battery succeeded. -/
def runBattery : List (DF → Except String (List String)) → DF → List String
  | [], _ => ["CHECKS COMPLETE"]
  | c :: cs, df =>
    match c df with
    | .ok ls => ls ++ runBattery cs df
    | .error e => ["Error: " ++ e]

def sanityMain (df : DF) : List String := runBattery sanityChecks df

/-! ## Helper lemmas for the resolver -/

theorem le_foldr_max {l : List Nat} {x : Nat} (hx : x ∈ l) :
    x ≤ l.foldr max 0 := by
  induction l with
  | nil => cases hx
  | cons a t ih =>
    rcases List.mem_cons.mp hx with rfl | hxt
    · exact le_max_left _ _
    · exact le_trans (ih hxt) (le_max_right _ _)

theorem foldr_max_le {l : List Nat} {c : Nat} (h : ∀ x ∈ l, x ≤ c) :
    l.foldr max 0 ≤ c := by
  induction l with
  | nil => exact Nat.zero_le c
  | cons a t ih =>
    exact max_le (h a (List.mem_cons_self a t))
      (ih (fun x hx => h x (List.mem_cons_of_mem a hx)))

theorem all_eq_dedup_singleton {vs : List String} {u : String}
    (hne : vs ≠ []) (hall : ∀ w ∈ vs, w = u) : vs.dedup = [u] := by
  induction vs with
  | nil => exact absurd rfl hne
  | cons a t ih =>
    have ha : a = u := hall a (List.mem_cons_self a t)
    cases t with
    | nil => simp [List.dedup, ha]
    | cons b t2 =>
      have hb : b = u := hall b (by simp)
      have hmem : a ∈ b :: t2 := by
        rw [ha, hb]; exact List.mem_cons_self u t2
      rw [List.dedup_cons_of_mem hmem]
      exact ih (by simp) (fun w hw => hall w (List.mem_cons_of_mem a hw))

theorem filter_eq_singleton {l : List α} {a : α} {p : α → Bool}
    (hnd : l.Nodup) (ha : a ∈ l) (hp : ∀ b ∈ l, p b = true ↔ b = a) :
    l.filter p = [a] := by
  induction l with
  | nil => cases ha
  | cons x t ih =>
    have hx := List.nodup_cons.mp hnd
    rcases List.mem_cons.mp ha with h | hat
    · subst h
      have hpx : p a = true := (hp a (List.mem_cons_self a t)).mpr rfl
      have ht : t.filter p = [] := by
        apply List.filter_eq_nil_iff.mpr
        intro b hb hpb
        exact hx.1 (((hp b (List.mem_cons_of_mem a hb)).mp hpb) ▸ hb)
      simp [List.filter_cons, hpx, ht]
    · have hpx : ¬ p x = true := by
        intro hpx
        have := (hp x (List.mem_cons_self x t)).mp hpx
        subst this
        exact hx.1 hat
      simp only [List.filter_cons, if_neg hpx]
      exact ih hx.2 hat (fun b hb => hp b (List.mem_cons_of_mem x hb))

theorem length_ne_one_of_two_mem {l : List α} {a b : α}
    (ha : a ∈ l) (hb : b ∈ l) (hab : a ≠ b) : l.length ≠ 1 := by
  intro h
  rcases List.length_eq_one.mp h with ⟨x, rfl⟩
  simp at ha hb
  exact hab (ha.trans hb.symm)

theorem modesOf_count_max {vs : List String} {m : String}
    (hm : m ∈ vs) (hmax : ∀ w ∈ vs, vs.count w ≤ vs.count m) :
    ((vs.dedup.map (fun u => vs.count u)).foldr max 0) = vs.count m := by
  apply le_antisymm
  · apply foldr_max_le
    intro y hy
    rcases List.mem_map.mp hy with ⟨u, hu, rfl⟩
    exact hmax u (List.mem_dedup.mp hu)
  · exact le_foldr_max (List.mem_map.mpr ⟨m, List.mem_dedup.mpr hm, rfl⟩)

theorem modesOf_unique {vs : List String} {m : String}
    (hm : m ∈ vs) (hlt : ∀ w ∈ vs, w ≠ m → vs.count w < vs.count m) :
    modesOf vs = [m] := by
  have hmax : ∀ w ∈ vs, vs.count w ≤ vs.count m := by
    intro w hw
    rcases eq_or_ne w m with rfl | hne
    · exact le_refl _
    · exact le_of_lt (hlt w hw hne)
  have hmx := modesOf_count_max hm hmax
  simp only [modesOf]
  rw [hmx]
  apply filter_eq_singleton (List.nodup_dedup vs) (List.mem_dedup.mpr hm)
  intro b hb
  constructor
  · intro hpb
    simp only [beq_iff_eq] at hpb
    by_contra hne
    exact absurd hpb (Nat.ne_of_lt (hlt b (List.mem_dedup.mp hb) hne))
  · intro hba
    subst hba
    simp

theorem mem_modesOf_of_max {vs : List String} {a : String}
    (ha : a ∈ vs) (hmax : ∀ w ∈ vs, vs.count w ≤ vs.count a) :
    a ∈ modesOf vs := by
  have hmx := modesOf_count_max ha hmax
  simp only [modesOf]
  rw [hmx]
  refine List.mem_filter.mpr ⟨List.mem_dedup.mpr ha, ?_⟩
  simp

/-- C1: `resolve` applied to a multiset of optional observations returns
("Unknown", no-conflict) when all observations are absent; the single
distinct non-absent value with no conflict when exactly one remains
regardless of multiplicity; the unique most-frequent value with the conflict
flag set when at least two distinct values remain and one mode is strict;
and ("Conflict", conflict set) when two or more values tie for most
frequent — values compared by exact, case-sensitive string equality (the
final conjunct separates "F" from "f"). -/
theorem C1_resolve_cases (values : List (Option String)) :
    (values.filterMap id = [] → resolve values = ("Unknown", 0)) ∧
    (∀ u, values.filterMap id ≠ [] →
      (∀ w ∈ values.filterMap id, w = u) → resolve values = (u, 0)) ∧
    (∀ m, (∃ a ∈ values.filterMap id, ∃ b ∈ values.filterMap id, a ≠ b) →
      m ∈ values.filterMap id →
      (∀ w ∈ values.filterMap id, w ≠ m →
        (values.filterMap id).count w < (values.filterMap id).count m) →
      resolve values = (m, 1)) ∧
    (∀ a b, a ∈ values.filterMap id → b ∈ values.filterMap id → a ≠ b →
      (values.filterMap id).count a = (values.filterMap id).count b →
      (∀ w ∈ values.filterMap id,
        (values.filterMap id).count w ≤ (values.filterMap id).count a) →
      resolve values = ("Conflict", 1)) ∧
    resolve [some "F", some "f"] = ("Conflict", 1) := by
  set vs := values.filterMap id with hvs
  refine ⟨?_, ?_, ?_, ?_, by decide⟩
  · intro h
    simp [resolve, ← hvs, h]
  · intro u hne hall
    have h0 : ¬ vs.length = 0 := by simpa [List.length_eq_zero] using hne
    have hd := all_eq_dedup_singleton hne hall
    simp [resolve, ← hvs, h0, hd]
  · intro m hex hm hlt
    obtain ⟨a, ha, b, hb, hab⟩ := hex
    have h0 : ¬ vs.length = 0 := by
      simp only [List.length_eq_zero]
      intro h
      rw [h] at ha
      cases ha
    have h1 : ¬ vs.dedup.length = 1 :=
      length_ne_one_of_two_mem (List.mem_dedup.mpr ha) (List.mem_dedup.mpr hb) hab
    have hmod := modesOf_unique hm hlt
    simp [resolve, ← hvs, h0, h1, hmod]
  · intro a b ha hb hab hcnt hmax
    have h0 : ¬ vs.length = 0 := by
      simp only [List.length_eq_zero]
      intro h
      rw [h] at ha
      cases ha
    have h1 : ¬ vs.dedup.length = 1 :=
      length_ne_one_of_two_mem (List.mem_dedup.mpr ha) (List.mem_dedup.mpr hb) hab
    have hma : a ∈ modesOf vs := mem_modesOf_of_max ha hmax
    have hmb : b ∈ modesOf vs := by
      apply mem_modesOf_of_max hb
      intro w hw
      exact hcnt ▸ hmax w hw
    have h2 : ¬ (modesOf vs).length = 1 := length_ne_one_of_two_mem hma hmb hab
    simp [resolve, ← hvs, h0, h1, h2]

theorem C1_resolve_cases_witness :
    resolve [none] = ("Unknown", 0) ∧
    resolve [some "F", none, some "F"] = ("F", 0) ∧
    resolve [some "F", some "F", some "M"] = ("F", 1) ∧
    resolve [some "F", some "M"] = ("Conflict", 1) :=
  ⟨(C1_resolve_cases [none]).1 (by decide),
   (C1_resolve_cases [some "F", none, some "F"]).2.1 "F" (by decide) (by decide),
   (C1_resolve_cases [some "F", some "F", some "M"]).2.2.1 "F" (by decide)
     (by decide) (by decide),
   (C1_resolve_cases [some "F", some "M"]).2.2.2.1 "F" "M" (by decide)
     (by decide) (by decide) (by decide) (by decide)⟩

/-! ## C2 — broadcast of standardized values -/

/-- The end-to-end scenario table: three policies for customer C1 with
genders ["F","F","M"] and one policy for customer C2 with gender absent. -/
def scenarioRows : List RawRow :=
  [⟨"P1", "C1", some "F", some "X"⟩,
   ⟨"P2", "C1", some "F", some "X"⟩,
   ⟨"P3", "C1", some "M", some "X"⟩,
   ⟨"P4", "C2", none, some "X"⟩]

/-- C2: after standardization every policy row of a customer carries the
resolver's output on that customer's raw observations (first conjunct), so
any two rows with the same customer_id agree on all four standardized
columns (second conjunct); on the concrete scenario table all three C1 rows
show customer_gender_std = "F" with gender_conflict = 1 and C2's row shows
"Unknown" with gender_conflict = 0 (third conjunct). -/
theorem C2_standardize_broadcast (rows : List RawRow) :
    (∀ r ∈ standardize rows,
      (r.customer_gender_std, r.gender_conflict) =
        resolve (genderObs rows r.customer_id) ∧
      (r.country_std, r.country_conflict) =
        resolve (countryObs rows r.customer_id)) ∧
    (∀ r1 ∈ standardize rows, ∀ r2 ∈ standardize rows,
      r1.customer_id = r2.customer_id →
      r1.customer_gender_std = r2.customer_gender_std ∧
      r1.gender_conflict = r2.gender_conflict ∧
      r1.country_std = r2.country_std ∧
      r1.country_conflict = r2.country_conflict) ∧
    (standardize scenarioRows).map
        (fun r => (r.customer_id, r.customer_gender_std, r.gender_conflict)) =
      [("C1", "F", 1), ("C1", "F", 1), ("C1", "F", 1), ("C2", "Unknown", 0)] := by
  have h1 : ∀ r ∈ standardize rows,
      (r.customer_gender_std, r.gender_conflict) =
        resolve (genderObs rows r.customer_id) ∧
      (r.country_std, r.country_conflict) =
        resolve (countryObs rows r.customer_id) := by
    intro r hr
    rcases List.mem_map.mp hr with ⟨r0, _, rfl⟩
    exact ⟨rfl, rfl⟩
  refine ⟨h1, ?_, by decide⟩
  intro r1 hr1 r2 hr2 heq
  obtain ⟨hg1, hc1⟩ := h1 r1 hr1
  obtain ⟨hg2, hc2⟩ := h1 r2 hr2
  rw [heq] at hg1 hc1
  have hg := hg1.trans hg2.symm
  have hc := hc1.trans hc2.symm
  exact ⟨congrArg Prod.fst hg, congrArg Prod.snd hg,
    congrArg Prod.fst hc, congrArg Prod.snd hc⟩

/-- The standardized form of scenario row P1 (as computed by the pipeline). -/
def scenarioStdRow : StdRow :=
  ⟨"P1", "C1", some "F", some "X", "F", 1, "X", 0⟩

theorem C2_standardize_broadcast_witness :
    (scenarioStdRow.customer_gender_std, scenarioStdRow.gender_conflict) =
      resolve (genderObs scenarioRows scenarioStdRow.customer_id) :=
  ((C2_standardize_broadcast scenarioRows).1 scenarioStdRow (by decide)).1

/-! ## C3 — group counts under row duplication -/

/-- A churned policy row duplicated verbatim inside group "A". -/
def dupRow : CRow := ⟨"P1", true, [("grp", some "A")]⟩

def dupRows : List CRow := [dupRow, dupRow]

/-- C3 counterexample: with the row of churned policy P1 duplicated, the
"A" group reports total_count 1 (policy_id is counted `nunique`) but
churned_count 2 (`('churned','sum')` sums raw rows) — although the group
contains exactly one distinct policy.  The claim that a duplicated row
increments neither count more than once is therefore false. -/
theorem C3_counterexample :
    (churnTableSorted dupRows (fun r => cell r "grp")).map
        (fun a => (a.value, a.total, a.churnedCount)) = [("A", 1, 2)] ∧
    (((groupRows dupRows (fun r => cell r "grp") "A").map
        (fun r => r.policy_id)).dedup).length = 1 ∧
    (2 : Nat) ≠ 1 := by
  refine ⟨by decide, by decide, by decide⟩

/-- C3 as amended: duplicating a row of a group leaves the group's
total_count unchanged (it counts distinct policy_ids), while it increments
churned_count by 1 exactly when the duplicated row is churned —
churned_count is a raw row sum, not a unique-policy count. -/
theorem C3_amended_counts (rows : List CRow) (r : CRow)
    (g : CRow → Option String) (v : String)
    (hr : r ∈ rows) (hv : g r = some v) :
    (aggOf (r :: rows) g v).total = (aggOf rows g v).total ∧
    (aggOf (r :: rows) g v).churnedCount =
      (aggOf rows g v).churnedCount + (if r.churned then 1 else 0) := by
  have hgrp : groupRows (r :: rows) g v = r :: groupRows rows g v := by
    simp [groupRows, List.filter_cons, hv]
  have hmem : r ∈ groupRows rows g v :=
    List.mem_filter.mpr ⟨hr, by simp [hv]⟩
  constructor
  · simp only [aggOf, hgrp, List.map_cons]
    rw [List.dedup_cons_of_mem (List.mem_map.mpr ⟨r, hmem, rfl⟩)]
  · simp only [aggOf, hgrp, List.filter_cons]
    by_cases hc : r.churned <;> simp [hc]

theorem C3_amended_counts_witness :
    (aggOf (dupRow :: [dupRow]) (fun r => cell r "grp") "A").total =
      (aggOf [dupRow] (fun r => cell r "grp") "A").total ∧
    (aggOf (dupRow :: [dupRow]) (fun r => cell r "grp") "A").churnedCount =
      (aggOf [dupRow] (fun r => cell r "grp") "A").churnedCount +
        (if dupRow.churned then 1 else 0) :=
  C3_amended_counts [dupRow] dupRow (fun r => cell r "grp") "A"
    (by decide) (by decide)

/-! ## C4 — deviation from the single per-run baseline -/

/-- C4: in a report run, every printed line of every breakdown satisfies
`deviation = rate − baseline` exactly, and the baseline subtracted is the one
`overall_churn_rate` of the whole table, computed once for the entire run. -/
theorem C4_deviation_from_baseline (rows : List CRow)
    (gs : List (CRow → Option String)) :
    ∀ t ∈ churnReport rows gs, ∀ p ∈ t,
      p.2 = p.1.rate - overall_churn_rate rows := by
  intro t ht p hp
  rcases List.mem_map.mp ht with ⟨g, _, rfl⟩
  rcases List.mem_map.mp hp with ⟨a, _, rfl⟩
  rfl

def c4rows : List CRow := [⟨"P1", true, [("c", some "A")]⟩]

def c4g : CRow → Option String := fun r => cell r "c"

theorem C4_deviation_from_baseline_witness :
    ((aggOf c4rows c4g "A",
        (aggOf c4rows c4g "A").rate - overall_churn_rate c4rows) : AggRow × ℚ).2 =
      (aggOf c4rows c4g "A",
        (aggOf c4rows c4g "A").rate - overall_churn_rate c4rows).1.rate -
        overall_churn_rate c4rows :=
  C4_deviation_from_baseline c4rows [c4g]
    (churnBreakdown c4rows c4g (overall_churn_rate c4rows))
    (List.Mem.head _)
    (aggOf c4rows c4g "A",
      (aggOf c4rows c4g "A").rate - overall_churn_rate c4rows)
    (List.Mem.head _)

/-! ## C5 — column totals of a breakdown vs whole-table counts -/

theorem sum_map_add (l : List α) (f h : α → Nat) :
    (l.map (fun a => f a + h a)).sum = (l.map f).sum + (l.map h).sum := by
  induction l with
  | nil => simp
  | cons a t ih => simp [ih]; omega

theorem sum_indicator_nodup {keys : List String} (hnd : keys.Nodup) (a : String) :
    (keys.map (fun v => if a = v then (1 : Nat) else 0)).sum =
      if a ∈ keys then 1 else 0 := by
  induction keys with
  | nil => simp
  | cons k ks ih =>
    have hk := List.nodup_cons.mp hnd
    by_cases hak : a = k
    · subst hak
      have hz : (ks.map (fun v => if a = v then (1 : Nat) else 0)).sum = 0 := by
        apply List.sum_eq_zero
        intro x hx
        rcases List.mem_map.mp hx with ⟨v, hv, rfl⟩
        have : a ≠ v := fun h => hk.1 (h ▸ hv)
        simp [this]
      simp [hz]
    · simp [hak, ih hk.2, List.mem_cons]

theorem countP_partition (g : CRow → Option String) (p : CRow → Bool)
    (keys : List String) (hnd : keys.Nodup) (rows : List CRow) :
    (keys.map (fun v => rows.countP (fun r => p r && (g r == some v)))).sum =
      rows.countP (fun r => p r && decide (∃ v ∈ keys, g r = some v)) := by
  induction rows with
  | nil => simp
  | cons r rows ih =>
    simp only [List.countP_cons]
    rw [sum_map_add, ih]
    have hind : (keys.map (fun v =>
        if (p r && (g r == some v)) = true then (1 : Nat) else 0)).sum =
        if (p r && decide (∃ v ∈ keys, g r = some v)) = true then 1 else 0 := by
      by_cases hp : p r
      · simp only [hp, Bool.true_and]
        cases hg : g r with
        | none =>
          have hz : (keys.map (fun v =>
              if ((none : Option String) == some v) = true then (1 : Nat) else 0)).sum
              = 0 := by
            apply List.sum_eq_zero
            intro x hx
            rcases List.mem_map.mp hx with ⟨v, _, rfl⟩
            simp
          simp [hz]
        | some a =>
          have hmap : (keys.map (fun v =>
              if ((some a : Option String) == some v) = true then (1 : Nat) else 0)) =
              keys.map (fun v => if a = v then (1 : Nat) else 0) := by
            apply List.map_congr_left
            intro v _
            by_cases hav : a = v <;> simp [hav]
          rw [hmap, sum_indicator_nodup hnd]
          have hiff : (∃ v ∈ keys, (some a : Option String) = some v) ↔ a ∈ keys := by
            constructor
            · rintro ⟨v, hv, he⟩
              cases he
              exact hv
            · intro hv
              exact ⟨a, hv, rfl⟩
          simp [hiff]
      · have hpf : p r = false := by simpa using hp
        have hz : (keys.map (fun v =>
            if (p r && (g r == some v)) = true then (1 : Nat) else 0)).sum = 0 := by
          apply List.sum_eq_zero
          intro x hx
          rcases List.mem_map.mp hx with ⟨v, _, rfl⟩
          simp [hpf]
        simp [hz, hpf]
    rw [hind]

/-- A key of a row of the table is a key of the breakdown. -/
theorem mem_keysOf {rows : List CRow} {g : CRow → Option String} {r : CRow}
    {a : String} (hr : r ∈ rows) (ha : g r = some a) : a ∈ keysOf rows g :=
  List.mem_dedup.mpr (List.mem_filterMap.mpr ⟨r, hr, ha⟩)

theorem churned_sum_groups (rows : List CRow) (g : CRow → Option String)
    (hsome : ∀ r ∈ rows, (g r).isSome = true) :
    ((churnGroups rows g).map (fun a => a.churnedCount)).sum =
      (rows.filter (fun r => r.churned)).length := by
  have h1 : (churnGroups rows g).map (fun a => a.churnedCount) =
      (keysOf rows g).map
        (fun v => rows.countP (fun r => r.churned && (g r == some v))) := by
    simp only [churnGroups, List.map_map]
    apply List.map_congr_left
    intro v _
    show ((groupRows rows g v).filter (fun r => r.churned)).length = _
    rw [groupRows, List.filter_filter, ← List.countP_eq_length_filter]
  rw [h1, countP_partition g (fun r => r.churned) (keysOf rows g)
      (List.nodup_dedup _) rows, ← List.countP_eq_length_filter]
  apply List.countP_congr
  intro r hr
  rcases Option.isSome_iff_exists.mp (hsome r hr) with ⟨a, ha⟩
  have hk : a ∈ keysOf rows g := mem_keysOf hr ha
  simp [ha, hk]

theorem total_sum_groups (rows : List CRow) (g : CRow → Option String)
    (hsome : ∀ r ∈ rows, (g r).isSome = true)
    (huniq : ∀ r1 ∈ rows, ∀ r2 ∈ rows,
      r1.policy_id = r2.policy_id → g r1 = g r2) :
    ((churnGroups rows g).map (fun a => a.total)).sum =
      ((rows.map (fun r => r.policy_id)).dedup).length := by
  classical
  have hK : (keysOf rows g).Nodup := List.nodup_dedup _
  have h1 : (churnGroups rows g).map (fun a => a.total) =
      (keysOf rows g).map
        (fun v => (((groupRows rows g v).map (fun r => r.policy_id)).toFinset).card) := by
    simp only [churnGroups, List.map_map]
    apply List.map_congr_left
    intro v _
    show (((groupRows rows g v).map (fun r => r.policy_id)).dedup).length = _
    rw [List.card_toFinset]
  have hdisj : ∀ x ∈ (keysOf rows g).toFinset, ∀ y ∈ (keysOf rows g).toFinset,
      x ≠ y → Disjoint
        (((groupRows rows g x).map (fun r => r.policy_id)).toFinset)
        (((groupRows rows g y).map (fun r => r.policy_id)).toFinset) := by
    intro x _ y _ hxy
    rw [Finset.disjoint_left]
    intro q hqx hqy
    rcases List.mem_map.mp (List.mem_toFinset.mp hqx) with ⟨r1, hr1, hq1⟩
    rcases List.mem_map.mp (List.mem_toFinset.mp hqy) with ⟨r2, hr2, hq2⟩
    have hr1' := List.mem_filter.mp hr1
    have hr2' := List.mem_filter.mp hr2
    have hg1 : g r1 = some x := by simpa using hr1'.2
    have hg2 : g r2 = some y := by simpa using hr2'.2
    have := huniq r1 hr1'.1 r2 hr2'.1 (hq1.trans hq2.symm)
    rw [hg1, hg2] at this
    exact hxy (Option.some_injective _ this)
  have hset : (keysOf rows g).toFinset.biUnion
      (fun v => ((groupRows rows g v).map (fun r => r.policy_id)).toFinset) =
      (rows.map (fun r => r.policy_id)).toFinset := by
    apply Finset.ext
    intro q
    simp only [Finset.mem_biUnion, List.mem_toFinset, List.mem_map]
    constructor
    · rintro ⟨v, _, r, hr, rfl⟩
      exact ⟨r, (List.mem_filter.mp hr).1, rfl⟩
    · rintro ⟨r, hr, rfl⟩
      rcases Option.isSome_iff_exists.mp (hsome r hr) with ⟨a, ha⟩
      refine ⟨a, mem_keysOf hr ha, r, ?_, rfl⟩
      exact List.mem_filter.mpr ⟨hr, by simp [ha]⟩
  rw [h1, ← List.sum_toFinset _ hK, ← Finset.card_biUnion hdisj, hset,
    List.card_toFinset]

def c5rows : List CRow :=
  [⟨"P1", true, [("c", some "A")]⟩, ⟨"P1", false, [("c", some "B")]⟩]

/-- C5 counterexample: the group column "c" of `c5rows` is non-null on every
row (a complete partition), yet the same policy_id P1 occurs in group "A"
and group "B", so the per-group totals (each a within-group `nunique`) sum
to 2 while the overall unique-policy count is 1.  The claimed equality of
the total_count sum with the overall unique-policy count is false. -/
theorem C5_counterexample :
    c5rows.all (fun r => (cell r "c").isSome) = true ∧
    ((churnTableSorted c5rows (fun r => cell r "c")).map
        (fun a => a.total)).sum = 2 ∧
    ((c5rows.map (fun r => r.policy_id)).dedup).length = 1 ∧
    (2 : Nat) ≠ 1 := by
  refine ⟨by decide, ?_, by decide, by decide⟩
  calc ((churnTableSorted c5rows (fun r => cell r "c")).map
      (fun a => a.total)).sum
      = ((churnGroups c5rows (fun r => cell r "c")).map
          (fun a => a.total)).sum :=
        (List.Perm.map _ (perm_sortBy _ _)).sum_eq
    _ = 2 := by decide

/-- C5 as amended: over a group column that is non-null on every row, the
per-group churned_counts of a breakdown always sum to the overall churned
row count; the per-group total_counts sum to the overall unique-policy count
provided additionally that rows sharing a policy_id always carry the same
group value (without that proviso a policy straddling two groups is counted
once per group, as in the counterexample). -/
theorem C5_amended_sums (rows : List CRow) (g : CRow → Option String)
    (hsome : ∀ r ∈ rows, (g r).isSome = true) :
    ((churnTableSorted rows g).map (fun a => a.churnedCount)).sum =
      (rows.filter (fun r => r.churned)).length ∧
    ((∀ r1 ∈ rows, ∀ r2 ∈ rows, r1.policy_id = r2.policy_id → g r1 = g r2) →
      ((churnTableSorted rows g).map (fun a => a.total)).sum =
        ((rows.map (fun r => r.policy_id)).dedup).length) := by
  constructor
  · calc ((churnTableSorted rows g).map (fun a => a.churnedCount)).sum
        = ((churnGroups rows g).map (fun a => a.churnedCount)).sum :=
          (List.Perm.map _ (perm_sortBy _ _)).sum_eq
      _ = (rows.filter (fun r => r.churned)).length :=
          churned_sum_groups rows g hsome
  · intro huniq
    calc ((churnTableSorted rows g).map (fun a => a.total)).sum
        = ((churnGroups rows g).map (fun a => a.total)).sum :=
          (List.Perm.map _ (perm_sortBy _ _)).sum_eq
      _ = ((rows.map (fun r => r.policy_id)).dedup).length :=
          total_sum_groups rows g hsome huniq

def c5wrows : List CRow := [⟨"P9", true, [("c", some "A")]⟩]

theorem C5_amended_sums_witness :
    ((churnTableSorted c5wrows (fun r => cell r "c")).map
        (fun a => a.churnedCount)).sum =
      (c5wrows.filter (fun r => r.churned)).length ∧
    ((churnTableSorted c5wrows (fun r => cell r "c")).map
        (fun a => a.total)).sum =
      ((c5wrows.map (fun r => r.policy_id)).dedup).length :=
  ⟨(C5_amended_sums c5wrows (fun r => cell r "c") (by decide)).1,
   (C5_amended_sums c5wrows (fun r => cell r "c") (by decide)).2 (by decide)⟩

/-! ## C10 — null group-column values and the baseline population -/

theorem filterMap_filter_isSome (rows : List CRow) (g : CRow → Option String) :
    (rows.filter (fun r => (g r).isSome)).filterMap g = rows.filterMap g := by
  induction rows with
  | nil => rfl
  | cons r rows ih =>
    cases hg : g r with
    | none => simp [List.filter_cons, List.filterMap_cons, hg, ih]
    | some a => simp [List.filter_cons, List.filterMap_cons, hg, ih]

theorem groupRows_filter_isSome (rows : List CRow) (g : CRow → Option String)
    (v : String) :
    groupRows (rows.filter (fun r => (g r).isSome)) g v = groupRows rows g v := by
  simp only [groupRows, List.filter_filter]
  apply List.filter_congr
  intro r _
  cases hg : g r <;> simp [hg]

theorem length_filter_isSome_split (rows : List CRow)
    (g : CRow → Option String) :
    (rows.filter (fun r => (g r).isSome)).length +
      (rows.filter (fun r => (g r).isNone)).length = rows.length := by
  induction rows with
  | nil => rfl
  | cons r rows ih =>
    cases hg : g r <;> simp [List.filter_cons, hg] <;> omega

def c10rows : List CRow :=
  [⟨"P1", true, [("c", none)]⟩, ⟨"P2", false, [("c", some "A")]⟩]

/-- C10: a row whose group-column value is null belongs to no group of the
breakdown (first conjunct) — indeed the whole breakdown is unchanged if the
null-valued rows are deleted (second conjunct) — while the baseline's
denominator `len(df)` decomposes as non-null plus null rows, i.e. it keeps
counting them (third conjunct).  Concretely, on a table whose churned policy
P1 has a null group value, the breakdown shows only group "A" with zero
churned rows, yet the baseline churn rate is 50% because P1 still counts in
`df['churned'].mean()` (fourth and fifth conjuncts): the group rates and the
baseline are computed over different row populations. -/
theorem C10_null_group_rows (rows : List CRow) (g : CRow → Option String) :
    (∀ r ∈ rows, g r = none → ∀ v, r ∉ groupRows rows g v) ∧
    churnGroups rows g = churnGroups (rows.filter (fun r => (g r).isSome)) g ∧
    (rows.filter (fun r => (g r).isSome)).length +
      (rows.filter (fun r => (g r).isNone)).length = rows.length ∧
    overall_churn_rate c10rows = 50 ∧
    churnTableSorted c10rows (fun r => cell r "c") = [⟨"A", 1, 0, 0⟩] := by
  refine ⟨?_, ?_, length_filter_isSome_split rows g, ?_, ?_⟩
  · intro r hr hnull v hmem
    have := (List.mem_filter.mp hmem).2
    rw [hnull] at this
    simp at this
  · simp only [churnGroups, keysOf, filterMap_filter_isSome]
    apply List.map_congr_left
    intro v _
    simp only [aggOf, groupRows_filter_isSome]
  · norm_num [overall_churn_rate, c10rows]
  · norm_num [churnTableSorted, churnGroups, keysOf, aggOf, groupRows,
      sortBy, insertIntoSorted, cell, c10rows, List.lookup]

theorem C10_null_group_rows_witness :
    (⟨"P1", true, [("c", none)]⟩ : CRow) ∉
      groupRows c10rows (fun r => cell r "c") "A" :=
  (C10_null_group_rows c10rows (fun r => cell r "c")).1
    ⟨"P1", true, [("c", none)]⟩ (by decide) (by decide) "A"

/-! ## C7 — IQR outlier check on [1,2,3,4,5,100] -/

def c7data : List ℚ := [1, 2, 3, 4, 5, 100]

/-- C7 counterexample: `pandas` quantiles use linear interpolation at
position p·(n−1), so on [1,2,3,4,5,100] the check computes Q1 = 2.25 and
Q3 = 4.75 — not the claimed Q1 = 2 and Q3 = 4.5. -/
theorem C7_counterexample :
    quantileLinear c7data (1/4) = 9/4 ∧ ¬ quantileLinear c7data (1/4) = 2 ∧
    quantileLinear c7data (3/4) = 19/4 ∧ ¬ quantileLinear c7data (3/4) = 9/2 := by
  refine ⟨?_, ?_, ?_, ?_⟩ <;>
    norm_num [quantileLinear, sortBy, insertIntoSorted, c7data, Int.toNat]

/-- C7 as amended: on [1,2,3,4,5,100] the outlier check computes Q1 = 2.25,
Q3 = 4.75, IQR = 2.5 (as claimed), fences [−1.5, 8.5], and counts exactly
one outlier, namely 100. -/
theorem C7_amended_outlier_stats :
    outlierStats c7data = some (9/4, 19/4, 5/2, -3/2, 17/2, 1) ∧
    c7data.filter (fun x => decide (x < -3/2) || decide (17/2 < x)) = [100] := by
  constructor
  · norm_num [outlierStats, quantileLinear, sortBy, insertIntoSorted, c7data,
      Int.toNat, List.countP_cons]
  · norm_num [c7data, List.filter_cons]

/-! ## C6 — missing-value justification inference -/

def c6df : DF :=
  [("churned", .boolC [true, false]),
   ("policy_end_date", .dateC [some 1, none]),
   ("churn_reason", .strC [none, none])]

/-- C6 counterexample: on `c6df`, churn_reason has 2 nulls while only 1 row
fails its paired predicate (churned = False), yet the validator marks
churn_reason as justified — its flag is keyed to policy_end_date's null
count, never to churn_reason's own.  "Justified exactly when the column's
null count equals the failing-row count" is therefore false. -/
theorem C6_counterexample :
    missingJustifications c6df =
      .ok [("policy_end_date", "churned=False"),
           ("churn_reason", "churned=False")] ∧
    ("churn_reason", 2) ∈ missingTable c6df ∧
    isnaCount (Col.strC [none, none]) = 2 ∧
    eqFalseCount (Col.boolC [true, false]) = 1 ∧
    (2 : Nat) ≠ 1 := by
  refine ⟨by decide, by decide, by decide, by decide, by decide⟩

/-- C6 as amended: when all six paired columns are present and the
justification pass succeeds, a column is marked justified exactly as
follows — discount_rate iff its null count equals the discount_applied=False
row count; policy_end_date iff its (coerced) null count equals the
churned=False row count; churn_reason iff *policy_end_date's* null count
equals the churned=False row count (churn_reason's own nulls are never
counted); agent_id iff its null count equals the count of rows whose
lower-cased acquisition_channel differs from "agent" (a null channel counts
as differing).  Equality is exact in every case. -/
theorem C6_amended_justified_iff (df : DF)
    (cch cend capp crate cchan cagent : Col) (js : List (String × String))
    (h1 : df.lookup "churned" = some cch)
    (h2 : df.lookup "policy_end_date" = some cend)
    (h3 : df.lookup "discount_applied" = some capp)
    (h4 : df.lookup "discount_rate" = some crate)
    (h5 : df.lookup "acquisition_channel" = some cchan)
    (h6 : df.lookup "agent_id" = some cagent)
    (hjs : missingJustifications df = .ok js) :
    ((js.lookup "discount_rate").isSome ↔
      isnaCount crate = eqFalseCount capp) ∧
    ((js.lookup "policy_end_date").isSome ↔
      countNone (toDatetime cend) = eqFalseCount cch) ∧
    ((js.lookup "churn_reason").isSome ↔
      countNone (toDatetime cend) = eqFalseCount cch) ∧
    ((js.lookup "agent_id").isSome ↔ ∃ low, strLower cchan = .ok low ∧
      isnaCount cagent = low.countP (fun o => !(o == some "agent"))) := by
  simp only [missingJustifications, h1, h2, h3, h4, h5, h6] at hjs
  cases hlow : strLower cchan with
  | error e =>
    rw [hlow] at hjs
    simp [exceptBind_error] at hjs
  | ok low =>
    rw [hlow] at hjs
    simp only [exceptBind_ok, exceptPure, Except.ok.injEq] at hjs
    subst hjs
    by_cases e1 : countNone (toDatetime cend) = eqFalseCount cch <;>
      by_cases e2 : isnaCount crate = eqFalseCount capp <;>
        by_cases e3 : isnaCount cagent =
          low.countP (fun o => !(o == some "agent")) <;>
          simp [e1, e2, e3, List.lookup, hlow]

def c6wdf : DF :=
  [("churned", .boolC [true, false]),
   ("policy_end_date", .dateC [some 1, none]),
   ("discount_applied", .boolC [false, true]),
   ("discount_rate", .numC [none, some 5]),
   ("acquisition_channel", .strC [none, none]),
   ("agent_id", .strC [none, none])]

def c6wjs : List (String × String) :=
  [("policy_end_date", "churned=False"),
   ("churn_reason", "churned=False"),
   ("discount_rate", "discount_applied=False"),
   ("agent_id", "acquisition_channel != Agent")]

theorem C6_amended_justified_iff_witness :
    ((c6wjs.lookup "discount_rate").isSome ↔
      isnaCount (Col.numC [none, some 5]) = eqFalseCount (Col.boolC [false, true])) ∧
    ((c6wjs.lookup "policy_end_date").isSome ↔
      countNone (toDatetime (Col.dateC [some 1, none])) =
        eqFalseCount (Col.boolC [true, false])) ∧
    ((c6wjs.lookup "churn_reason").isSome ↔
      countNone (toDatetime (Col.dateC [some 1, none])) =
        eqFalseCount (Col.boolC [true, false])) ∧
    ((c6wjs.lookup "agent_id").isSome ↔ ∃ low,
      strLower (Col.strC [none, none]) = .ok low ∧
      isnaCount (Col.strC [none, none]) =
        low.countP (fun o => !(o == some "agent"))) :=
  C6_amended_justified_iff c6wdf (Col.boolC [true, false])
    (Col.dateC [some 1, none]) (Col.boolC [false, true])
    (Col.numC [none, some 5]) (Col.strC [none, none])
    (Col.strC [none, none]) c6wjs
    (by decide) (by decide) (by decide) (by decide) (by decide) (by decide)
    (by decide)

/-! ## C8 — independence of the seven checks -/

/-- A DataFrame whose acquisition_channel column is numeric (e.g. coded)
while agent_id is present with a missing value: check 4 then reaches
`df['acquisition_channel'].str.lower()` and raises. -/
def c8df : DF :=
  [("acquisition_channel", .numC [some 3]),
   ("agent_id", .strC [none])]

/-- C8 counterexample: on `c8df` check 4 (missing values) raises inside the
justification pass, and although checks 5 (duplicates) and 7 (outliers)
would each succeed on the same table, the report contains neither their
sections nor the completion footer — the shared `try:` in `main()` stops the
battery at the first failure. -/
theorem C8_counterexample :
    (print_missing_values c8df).isOk = false ∧
    (print_duplicates c8df).isOk = true ∧
    (print_outliers c8df).isOk = true ∧
    "5. DUPLICATES" ∉ sanityMain c8df ∧
    "7. OUTLIERS" ∉ sanityMain c8df ∧
    "CHECKS COMPLETE" ∉ sanityMain c8df := by
  refine ⟨by decide, by decide, by decide, by decide, by decide, by decide⟩

theorem runBattery_ok_all (df : DF) :
    ∀ (cs : List (DF → Except String (List String)))
      (outs : List (List String)),
      cs.map (fun ck => ck df) = outs.map Except.ok →
      runBattery cs df = outs.flatten ++ ["CHECKS COMPLETE"] := by
  intro cs
  induction cs with
  | nil =>
    intro outs h
    cases outs with
    | nil => simp [runBattery]
    | cons o os => simp at h
  | cons ck cs ih =>
    intro outs h
    cases outs with
    | nil => simp at h
    | cons o os =>
      simp only [List.map_cons, List.cons.injEq] at h
      obtain ⟨hh, ht⟩ := h
      simp [runBattery, hh, ih os ht, List.flatten_cons, List.append_assoc]

theorem runBattery_error_truncates (df : DF) :
    ∀ (cs1 : List (DF → Except String (List String)))
      (outs : List (List String))
      (cs2 : List (DF → Except String (List String)))
      (c : DF → Except String (List String)) (e : String),
      cs1.map (fun ck => ck df) = outs.map Except.ok → c df = .error e →
      runBattery (cs1 ++ c :: cs2) df = outs.flatten ++ ["Error: " ++ e] := by
  intro cs1
  induction cs1 with
  | nil =>
    intro outs cs2 c e h hc
    cases outs with
    | nil => simp [runBattery, hc]
    | cons o os => simp at h
  | cons ck cs ih =>
    intro outs cs2 c e h hc
    cases outs with
    | nil => simp at h
    | cons o os =>
      simp only [List.map_cons, List.cons.injEq] at h
      obtain ⟨hh, ht⟩ := h
      simp [runBattery, hh, ih os cs2 c e ht hc, List.append_assoc]

/-- C8 as amended: the battery runs in its fixed order, and when every check
succeeds each contributes its section followed by the completion footer
(first conjunct); but the checks are *not* failure-independent — the first
check that raises truncates the run, so the checks after it contribute
nothing and the error is reported instead (second conjunct). -/
theorem C8_amended_battery_sequencing :
    (∀ (df : DF) (cs : List (DF → Except String (List String)))
        (outs : List (List String)),
      cs.map (fun ck => ck df) = outs.map Except.ok →
      runBattery cs df = outs.flatten ++ ["CHECKS COMPLETE"]) ∧
    (∀ (df : DF) (cs1 cs2 : List (DF → Except String (List String)))
        (c : DF → Except String (List String)) (outs : List (List String))
        (e : String),
      cs1.map (fun ck => ck df) = outs.map Except.ok → c df = .error e →
      runBattery (cs1 ++ c :: cs2) df = outs.flatten ++ ["Error: " ++ e]) :=
  ⟨fun df cs outs h => runBattery_ok_all df cs outs h,
   fun df cs1 cs2 c outs e h hc =>
     runBattery_error_truncates df cs1 outs cs2 c e h hc⟩

theorem C8_amended_battery_sequencing_witness :
    runBattery ([print_shape] ++ print_missing_values :: [print_duplicates])
        c8df =
      [["1. SHAPE", "1", "2"]].flatten ++
        ["Error: AttributeError: can only use .str accessor with string values"] :=
  C8_amended_battery_sequencing.2 c8df [print_shape] [print_duplicates]
    print_missing_values [["1. SHAPE", "1", "2"]]
    "AttributeError: can only use .str accessor with string values"
    (by decide) (by decide)

/-! ## C9 — absent optional columns -/

def c9df : ChurnDF :=
  ⟨["payment_frequency"],
   [⟨"P1", false, [("payment_frequency", some "Monthly")]⟩]⟩

/-- C9 counterexample: churn_rate.py guards no column accesses — on a table
without a product_type column, `churn_table(df, 'product_type', ...)` raises
KeyError and the sequential report loop aborts; the missing optional column
does make the run fail, it is not skipped. -/
theorem C9_counterexample :
    churn_table c9df "product_type" (overall_churn_rate c9df.rows) =
      .error "KeyError: product_type" ∧
    churnRun c9df ["product_type", "payment_frequency"] =
      .error "KeyError: product_type" := by
  refine ⟨by decide, by decide⟩

/-- The numeric-rule loop of check 6 only ever touches present columns:
when every rule column is absent, the fold is the identity on its
accumulator and cannot raise. -/
theorem foldlM_rules_absent (sdf : DF) :
    ∀ (rules : List (String × (ℚ → Bool))) (acc : List String),
      (∀ rule ∈ rules, sdf.lookup rule.1 = none) →
      (rules.foldlM (fun acc rule =>
        match sdf.lookup rule.1 with
        | none => pure acc
        | some col => do
            let vs ← numVals col
            let n := (vs.filterMap id).countP rule.2
            pure (if 0 < n then acc ++ [rule.1] else acc)) acc) =
        Except.ok acc := by
  intro rules
  induction rules with
  | nil => intro acc _; rfl
  | cons r rs ih =>
    intro acc h
    rw [List.foldlM_cons]
    have hr := h r (List.mem_cons_self r rs)
    simp only [hr, exceptPure, exceptBind_ok]
    exact ih acc (fun rule hrule => h rule (List.mem_cons_of_mem r hrule))

/-- Likewise the per-column loop of check 7. -/
theorem foldlM_outliers_absent (sdf : DF) :
    ∀ (cols2 : List String) (acc : List String),
      (∀ c2 ∈ cols2, sdf.lookup c2 = none) →
      (cols2.foldlM (fun acc c =>
        match sdf.lookup c with
        | none => pure acc
        | some col => do
            let vs ← numVals col
            pure (match outlierStats (vs.filterMap id) with
              | none => acc
              | some _ => acc ++ [c])) acc) = Except.ok acc := by
  intro cols2
  induction cols2 with
  | nil => intro acc _; rfl
  | cons r rs ih =>
    intro acc h
    rw [List.foldlM_cons]
    have hr := h r (List.mem_cons_self r rs)
    simp only [hr, exceptPure, exceptBind_ok]
    exact ih acc (fun c2 hc2 => h c2 (List.mem_cons_of_mem r hc2))

/-- The justification pass of check 4 can only raise through
`.str.lower()` on acquisition_channel, and that code is guarded by the
presence of both acquisition_channel and agent_id. -/
theorem missingJustifications_ok_of_absent (sdf : DF)
    (hca : sdf.lookup "acquisition_channel" = none ∨
      sdf.lookup "agent_id" = none) :
    ∃ js, missingJustifications sdf = .ok js := by
  unfold missingJustifications
  rcases hca with h | h
  · rw [h]
    exact ⟨_, rfl⟩
  · cases hc : sdf.lookup "acquisition_channel" with
    | none => exact ⟨_, rfl⟩
    | some cchan =>
      rw [h]
      exact ⟨_, rfl⟩

theorem print_missing_values_ok_of_absent (sdf : DF)
    (hca : sdf.lookup "acquisition_channel" = none ∨
      sdf.lookup "agent_id" = none) :
    (print_missing_values sdf).isOk = true := by
  obtain ⟨js, hjs⟩ := missingJustifications_ok_of_absent sdf hca
  unfold print_missing_values
  by_cases hm : (missingTable sdf).isEmpty
  · simp [hm, Except.isOk, Except.toBool]
  · simp [hm, hjs, exceptBind_ok, Except.isOk, Except.toBool]

theorem print_impossible_values_ok_of_absent (sdf : DF)
    (hrules : ∀ rule ∈ numericRules, sdf.lookup rule.1 = none)
    (hca : sdf.lookup "acquisition_channel" = none ∨
      sdf.lookup "agent_id" = none) :
    (print_impossible_values sdf).isOk = true := by
  unfold print_impossible_values
  rw [foldlM_rules_absent sdf numericRules [] hrules]
  simp only [exceptBind_ok]
  rcases hca with h | h
  · simp [h, Except.isOk, Except.toBool, exceptPure, exceptBind_ok]
  · cases hc : sdf.lookup "acquisition_channel" with
    | none => simp [hc, Except.isOk, Except.toBool, exceptPure, exceptBind_ok]
    | some cchan => simp [hc, h, Except.isOk, Except.toBool, exceptPure, exceptBind_ok]

theorem print_outliers_ok_of_absent (sdf : DF)
    (ho : ∀ c2 ∈ outlierCols, sdf.lookup c2 = none) :
    (print_outliers sdf).isOk = true := by
  unfold print_outliers
  rw [foldlM_outliers_absent sdf outlierCols [] ho]
  simp [Except.isOk, Except.toBool, exceptBind_ok]

/-- A battery whose checks all succeed reaches the completion footer. -/
theorem footer_mem_runBattery (df : DF) :
    ∀ cs : List (DF → Except String (List String)),
      (∀ ck ∈ cs, (ck df).isOk = true) →
      "CHECKS COMPLETE" ∈ runBattery cs df := by
  intro cs
  induction cs with
  | nil => intro _; simp [runBattery]
  | cons ck cs ih =>
    intro h
    have hok := h ck (List.mem_cons_self ck cs)
    cases hck : ck df with
    | error e =>
      rw [hck] at hok
      simp [Except.isOk, Except.toBool] at hok
    | ok ls =>
      simp only [runBattery, hck]
      exact List.mem_append_right ls
        (ih (fun ck2 h2 => h ck2 (List.mem_cons_of_mem ck h2)))

/-- A table carrying only the two identifier columns: every optional column
of the validator is absent. -/
def c9mindf : DF :=
  [("policy_id", .strC [some "P1"]), ("customer_id", .strC [some "C1"])]

/-- C9 as amended: the two scripts diverge.  sanity_checks.py skips absent
optional columns silently and never fails because of one: an absent
configured categorical column is simply not covered by check 3; checks 1, 2,
3 and 5 never raise at all; check 4 can only raise when acquisition_channel
and agent_id are both present; checks 6 and 7 skip their absent columns and
succeed when those columns are absent; a battery whose checks all succeed
ends with the completion footer, as the minimal table `c9mindf` missing
every optional column demonstrates concretely.  churn_rate.py however
accesses the group column unconditionally, so an absent breakdown column
raises KeyError and fails the churn-report run. -/
theorem C9_amended_absence_behaviour (sdf : DF) (col : String)
    (dfc : ChurnDF) (c : String) (b : ℚ)
    (h1 : sdf.lookup col = none) (h2 : dfc.cols.contains c = false) :
    col ∉ coveredCategoricalCols sdf ∧
    (print_shape sdf).isOk = true ∧
    (print_dtypes sdf).isOk = true ∧
    (print_categorical_distribution sdf).isOk = true ∧
    (print_duplicates sdf).isOk = true ∧
    ((sdf.lookup "acquisition_channel" = none ∨
        sdf.lookup "agent_id" = none) →
      (print_missing_values sdf).isOk = true) ∧
    ((∀ rule ∈ numericRules, sdf.lookup rule.1 = none) →
      (sdf.lookup "acquisition_channel" = none ∨
        sdf.lookup "agent_id" = none) →
      (print_impossible_values sdf).isOk = true) ∧
    ((∀ c2 ∈ outlierCols, sdf.lookup c2 = none) →
      (print_outliers sdf).isOk = true) ∧
    ((∀ ck ∈ sanityChecks, (ck sdf).isOk = true) →
      "CHECKS COMPLETE" ∈ sanityMain sdf) ∧
    "CHECKS COMPLETE" ∈ sanityMain c9mindf ∧
    churn_table dfc c b = .error ("KeyError: " ++ c) := by
  refine ⟨?_, rfl, rfl, rfl, rfl,
    fun hca => print_missing_values_ok_of_absent sdf hca,
    fun hrules hca => print_impossible_values_ok_of_absent sdf hrules hca,
    fun ho => print_outliers_ok_of_absent sdf ho,
    fun hall => footer_mem_runBattery sdf sanityChecks hall,
    by decide, ?_⟩
  · intro hmem
    have hs := (List.mem_filter.mp hmem).2
    rw [h1] at hs
    simp at hs
  · simp [churn_table, h2]
    simpa using h2

theorem C9_amended_absence_behaviour_witness :
    "product_type" ∉ coveredCategoricalCols c9mindf ∧
    (print_missing_values c9mindf).isOk = true ∧
    (print_impossible_values c9mindf).isOk = true ∧
    (print_outliers c9mindf).isOk = true ∧
    "CHECKS COMPLETE" ∈ sanityMain c9mindf ∧
    churn_table c9df "product_type" (0 : ℚ) =
      .error ("KeyError: " ++ "product_type") := by
  have T := C9_amended_absence_behaviour c9mindf "product_type" c9df
    "product_type" 0 (by decide) (by decide)
  exact ⟨T.1,
    T.2.2.2.2.2.1 (Or.inl (by decide)),
    T.2.2.2.2.2.2.1 (by decide) (Or.inl (by decide)),
    T.2.2.2.2.2.2.2.1 (by decide),
    T.2.2.2.2.2.2.2.2.1 (by decide),
    T.2.2.2.2.2.2.2.2.2.2⟩
